import Mathlib

/-!
Verification of the CosmicOptic signal-synthesis and attribution core.

The Python source (backend/services/{prediction,data_generator,explainer}.py,
backend/main.py, backend/models/schemas.py) is shallowly embedded below.
Machine floats are modelled by exact rationals; `numpy` array operations
become list operations; the transcendental helpers (`np.exp`, `np.sin`,
`scipy.ndimage.gaussian_filter1d`, `np.convolve`, the pseudo-random normal
draws, and the `%.1f` float formatter) are abstract parameters, since no
claim depends on their concrete values.  Python `%` on integers with a
positive modulus is `Int.emod`; Python float `%` for a positive divisor is
`t - p * ⌊t / p⌋`.
-/

namespace CosmicOptic

/-! ## Classification resolver (backend/services/prediction.py) -/

/-- The two output classes of `_predict_synthetic`. -/
inductive Label where
  | exoplanet
  | no_planet
deriving DecidableEq, Repr

/-- Ground-truth labels stored in the static sample catalog. -/
inductive Truth where
  | confirmed
  | candidate
  | false_positive
deriving DecidableEq, Repr

/-- The classification/confidence block of `_predict_synthetic`
(prediction.py lines 73-105), as a function of the truth label and of the
integer value that `hash(sample["id"])` takes in the running process.
Python `%` with a positive modulus is `Int.emod`. -/
def resolveClassification (truth : Truth) (h : Int) : Label × ℚ :=
  match truth with
  | .confirmed => (.exoplanet, 90/100 + ((h.emod 8 : Int) : ℚ) / 100)
  | .candidate =>
      let candidate_hash := h.emod 100
      if candidate_hash < 70 then
        (.exoplanet, 60/100 + ((candidate_hash.emod 20 : Int) : ℚ) / 100)
      else
        (.no_planet, 55/100 + ((candidate_hash.emod 15 : Int) : ℚ) / 100)
  | .false_positive => (.no_planet, 85/100 + ((h.emod 12 : Int) : ℚ) / 100)

/-- One full run of the service fixes one salted string-hash function
(CPython salts `hash` on `str` per process via `PYTHONHASHSEED`); the
resolver of that run composes it with `resolveClassification`. -/
def runClassification (hashOfId : String → Int) (truth : Truth) (sid : String) :
    Label × ℚ :=
  resolveClassification truth (hashOfId sid)

lemma emod_cast_bounds (h : Int) {m : Int} (hm : 0 < m) :
    (0 : ℚ) ≤ ((h.emod m : Int) : ℚ) ∧ ((h.emod m : Int) : ℚ) ≤ ((m : ℚ) - 1) := by
  have h0 : (0 : Int) ≤ h.emod m := Int.emod_nonneg h (by omega)
  have h1 : h.emod m < m := Int.emod_lt_of_pos h hm
  constructor
  · exact_mod_cast h0
  · have h2 : h.emod m ≤ m - 1 := by omega
    have h3 : ((h.emod m : Int) : ℚ) ≤ ((m - 1 : Int) : ℚ) := by exact_mod_cast h2
    push_cast at h3
    linarith

/-- **C1.** truth=confirmed → label exoplanet, confidence
`0.90 + (hash(id) mod 8)/100 ∈ [0.90, 0.97]`; truth=false_positive →
label no_planet, confidence `0.85 + (hash(id) mod 12)/100 ∈ [0.85, 0.96]`;
truth=candidate with `h = hash(id) mod 100` → exoplanet with confidence
`0.60 + (h mod 20)/100` when `h < 70`, otherwise no_planet with confidence
`0.55 + (h mod 15)/100`. -/
theorem claim_C1 : ∀ h : Int,
    (resolveClassification Truth.confirmed h
        = (Label.exoplanet, 90/100 + ((h.emod 8 : Int) : ℚ) / 100)
      ∧ 90/100 ≤ (resolveClassification Truth.confirmed h).2
      ∧ (resolveClassification Truth.confirmed h).2 ≤ 97/100)
    ∧ (resolveClassification Truth.false_positive h
        = (Label.no_planet, 85/100 + ((h.emod 12 : Int) : ℚ) / 100)
      ∧ 85/100 ≤ (resolveClassification Truth.false_positive h).2
      ∧ (resolveClassification Truth.false_positive h).2 ≤ 96/100)
    ∧ resolveClassification Truth.candidate h
        = (if h.emod 100 < 70 then
            (Label.exoplanet, 60/100 + (((h.emod 100).emod 20 : Int) : ℚ) / 100)
          else
            (Label.no_planet, 55/100 + (((h.emod 100).emod 15 : Int) : ℚ) / 100)) := by
  intro h
  obtain ⟨c8lo, c8hi⟩ := emod_cast_bounds h (show (0:Int) < 8 by norm_num)
  obtain ⟨c12lo, c12hi⟩ := emod_cast_bounds h (show (0:Int) < 12 by norm_num)
  push_cast at c8hi c12hi
  refine ⟨⟨rfl, ?_, ?_⟩, ⟨rfl, ?_, ?_⟩, rfl⟩
  · simp only [resolveClassification]
    linarith
  · simp only [resolveClassification]
    linarith
  · simp only [resolveClassification]
    linarith
  · simp only [resolveClassification]
    linarith

/-- **C2.** The claim asserts that two separate process invocations give a
sample the same label and confidence.  CPython salts the string hash per
process, so the value of `hash(sample["id"])` differs between runs: the two
run-level hash functions below are both realizable, yet they classify the
same candidate identifier differently. -/
theorem claim_C2_code_bug :
    runClassification (fun _ => 0) Truth.candidate "koi-5123"
        = (Label.exoplanet, 60/100)
    ∧ runClassification (fun _ => 70) Truth.candidate "koi-5123"
        = (Label.no_planet, 65/100)
    ∧ (runClassification (fun _ => 0) Truth.candidate "koi-5123").1
        ≠ (runClassification (fun _ => 70) Truth.candidate "koi-5123").1 := by
  refine ⟨?_, ?_, ?_⟩
  · simp only [runClassification, resolveClassification, Prod.mk.injEq]
    norm_num
  · simp only [runClassification, resolveClassification, Prod.mk.injEq]
    norm_num
  · simp only [runClassification, resolveClassification]
    norm_num
    decide

/-! ## Light-curve generator (backend/services/data_generator.py)

The per-sample Gaussian noise draw (`np.random.normal(0, sigma, num_points)`)
is modelled as an abstract stream `noise : ℕ → ℚ` giving the value added at
each index; no claim depends on its distribution. -/

/-- Element `i` of numpy's `linspace(0, 30, n)` grid.  With `endpoint=True`
(the default used by the source) the grid is `i * 30/(n-1)`, whose last
element is exactly 30; `linspace(0, 30, 1) = [0.]`. -/
def timeAt (n i : ℕ) : ℚ := if n ≤ 1 then 0 else 30 * (i : ℚ) / ((n : ℚ) - 1)

/-- `time = np.linspace(0, 30, num_points)` (data_generator.py lines 56, 109, 140). -/
def linspace30 (n : ℕ) : List ℚ := (List.range n).map (timeAt n)

/-- Python float `%` for a nonnegative dividend and a positive divisor:
`t - p * floor(t / p)`. -/
def fmodQ (t p : ℚ) : ℚ := t - p * ⌊t / p⌋

/-- `phase = (t % period_days) / period_days` (data_generator.py line 69). -/
def phaseOf (p t : ℚ) : ℚ := fmodQ t p / p

/-- `transit_width = min(0.04, transit_duration / (period_days * 24))`
(data_generator.py line 66). -/
def transitWidth (p dur : ℚ) : ℚ := min (4/100) (dur / (p * 24))

/-- The `phase_start < phase < phase_end` membership test of
data_generator.py lines 71-74, where `phase_start = 0.5 - transit_width/2`
and `phase_end = 0.5 + transit_width/2`. -/
def inTransit (p dur t : ℚ) : Bool :=
  let w := transitWidth p dur
  decide (1/2 - w / 2 < phaseOf p t) && decide (phaseOf p t < 1/2 + w / 2)

/-- `relative_phase = (phase - 0.5) / (transit_width / 2)` (line 77). -/
def relativePhase (p dur t : ℚ) : ℚ :=
  (phaseOf p t - 1/2) / (transitWidth p dur / 2)

/-- `depth_factor = transit_depth * limb_factor * (1 - abs(relative_phase) * 0.2)`
with `limb_factor = 1.0 - 0.1 * (1 - relative_phase**2)` (lines 78-79). -/
def depthFactor (p dur depth t : ℚ) : ℚ :=
  let rp := relativePhase p dur t
  depth * (1 - (1/10) * (1 - rp ^ 2)) * (1 - |rp| * (2/10))

/-- `calculate_realistic_depth` (data_generator.py lines 8-32):
transit depth `(R_planet / R_star)^2` with `R_earth = 6371` km and
`R_sun = 696000` km. -/
def calculate_realistic_depth (planet_radius_earth : ℚ)
    (star_radius_solar : ℚ := 1) : ℚ :=
  let R_planet := planet_radius_earth * 6371
  let R_star := star_radius_solar * 696000
  (R_planet / R_star) ^ 2

/-- The depth override at the top of `generate_confirmed_planet`
(lines 46-54): when a planet radius is supplied, the `transit_depth`
argument is replaced by the computed realistic depth, amplified 100x when
it falls below 0.0005. -/
def effectiveDepth (transit_depth : ℚ) (planet_radius_earth : Option ℚ) : ℚ :=
  match planet_radius_earth with
  | none => transit_depth
  | some r =>
      let d := calculate_realistic_depth r 1
      if d < 5/10000 then d * 100 else d

/-- A `transit_regions` entry (dict literal of lines 84-88; also
models.schemas.TransitRegion). -/
structure Region where
  start_index : ℕ
  end_index : ℕ
  depth : ℚ
deriving DecidableEq, Repr

/-- One iteration of the region bookkeeping of lines 82-94, acting on the
region list in reverse order (most recent region first); `inT i` says index
`i` is inside the transit window, `df i` is its `depth_factor`.  A new
region opens when the previous region ended more than 10 samples before
`i`, otherwise the current region is extended and its depth raised. -/
def regionStep (inT : ℕ → Bool) (df : ℕ → ℚ) (acc : List Region) (i : ℕ) :
    List Region :=
  if inT i then
    match acc with
    | [] => [⟨i, i, df i⟩]
    | r :: rest =>
        if (r.end_index : Int) < (i : Int) - 10 then ⟨i, i, df i⟩ :: r :: rest
        else ⟨r.start_index, i, max r.depth (df i)⟩ :: rest
  else acc

/-- The full `transit_regions` list accumulated by the loop of lines 68-94,
in creation order. -/
def confirmedRegions (inT : ℕ → Bool) (df : ℕ → ℚ) (n : ℕ) : List Region :=
  ((List.range n).foldl (regionStep inT df) []).reverse

/-- Result triple `(time_points, flux_values, transit_regions)` of a
generator entry point. -/
structure GenResult where
  time : List ℚ
  flux : List ℚ
  regions : List Region
deriving Repr

/-- The in-transit test of `generate_confirmed_planet` at sample index `i`. -/
def confirmedInT (p dur : ℚ) (n : ℕ) (i : ℕ) : Bool := inTransit p dur (timeAt n i)

/-- The `depth_factor` of `generate_confirmed_planet` at sample index `i`. -/
def confirmedDf (p dur depth : ℚ) (n : ℕ) (i : ℕ) : ℚ :=
  depthFactor p dur depth (timeAt n i)

/-- `generate_confirmed_planet` (data_generator.py lines 34-96). -/
def generate_confirmed_planet (period_days transit_depth transit_duration : ℚ)
    (num_points : ℕ) (planet_radius_earth : Option ℚ) (noise : ℕ → ℚ) :
    GenResult :=
  let depth := effectiveDepth transit_depth planet_radius_earth
  let inT := confirmedInT period_days transit_duration num_points
  let df := confirmedDf period_days transit_duration depth num_points
  { time := linspace30 num_points
    flux := (List.range num_points).map
      (fun i => 1 + noise i - (if inT i then df i else 0))
    regions := confirmedRegions inT df num_points }

/-- The triangular eclipse dip of the `eclipsing_binary` branch
(data_generator.py lines 117-119): for each center `c ∈ {7, 14, 21}`,
samples with `|t - c| < 0.5` lose `0.05 * (1 - |t - c| / 0.5)`. -/
def eclipseDip (t : ℚ) : ℚ :=
  (([7, 14, 21] : List ℚ).map
    (fun c => if |t - c| < 1/2 then (5/100) * (1 - |t - c| / (1/2)) else 0)).sum

/-- `generate_false_positive` (data_generator.py lines 98-131).  `qsin` is
an abstract stand-in for `np.sin` and `qpi` for `np.pi`. -/
def generate_false_positive (num_points : ℕ) (anomaly_type : String)
    (noise : ℕ → ℚ) (qsin : ℚ → ℚ) (qpi : ℚ) : GenResult :=
  if anomaly_type = "eclipsing_binary" then
    { time := linspace30 num_points
      flux := (List.range num_points).map
        (fun i => 1 + noise i - eclipseDip (timeAt num_points i))
      regions := [] }
  else if anomaly_type = "stellar_variability" then
    { time := linspace30 num_points
      flux := (List.range num_points).map
        (fun i => 1 + (2/100) * qsin (2 * qpi * timeAt num_points i / 10) + noise i)
      regions := [] }
  else
    { time := linspace30 num_points
      flux := (List.range num_points).map (fun i => 1 + noise i)
      regions := [] }

/-- `generate_candidate` (data_generator.py lines 133-158): period 5.2,
very shallow unshaped dip of depth 0.005 on the open phase window
(0.48, 0.52); the `transit_regions` list is never populated. -/
def generate_candidate (num_points : ℕ) (noise : ℕ → ℚ) : GenResult :=
  { time := linspace30 num_points
    flux := (List.range num_points).map
      (fun i =>
        let ph := phaseOf (26/5) (timeAt num_points i)
        1 + noise i - (if 48/100 < ph ∧ ph < 52/100 then 5/1000 else 0))
    regions := [] }

lemma timeAt_nonneg (n i : ℕ) : 0 ≤ timeAt n i := by
  unfold timeAt
  split
  · exact le_refl 0
  · rename_i h
    have hn : (2 : ℚ) ≤ (n : ℚ) := by exact_mod_cast (by omega : 2 ≤ n)
    have hpos : (0 : ℚ) < (n : ℚ) - 1 := by linarith
    have hi : (0 : ℚ) ≤ (i : ℚ) := by positivity
    positivity

lemma timeAt_le_30 (n i : ℕ) (h : i < n) : timeAt n i ≤ 30 := by
  unfold timeAt
  split
  · norm_num
  · rename_i hn1
    have hn : (2 : ℚ) ≤ (n : ℚ) := by exact_mod_cast (by omega : 2 ≤ n)
    have hpos : (0 : ℚ) < (n : ℚ) - 1 := by linarith
    rw [div_le_iff₀ hpos]
    have hi : (i : ℚ) ≤ (n : ℚ) - 1 := by
      have : (i : ℚ) + 1 ≤ (n : ℚ) := by exact_mod_cast (by omega : i + 1 ≤ n)
      linarith
    nlinarith

lemma timeAt_lt (n : ℕ) {i j : ℕ} (hij : i < j) (hj : j < n) :
    timeAt n i < timeAt n j := by
  unfold timeAt
  have hn1 : ¬ n ≤ 1 := by omega
  simp only [hn1, if_false]
  have hn : (2 : ℚ) ≤ (n : ℚ) := by exact_mod_cast (by omega : 2 ≤ n)
  have hpos : (0 : ℚ) < (n : ℚ) - 1 := by linarith
  rw [div_lt_div_iff_of_pos_right hpos]
  have : (i : ℚ) < (j : ℚ) := by exact_mod_cast hij
  linarith

lemma pairwise_linspace30 (n : ℕ) : (linspace30 n).Pairwise (· < ·) := by
  unfold linspace30
  rw [List.pairwise_map]
  refine (List.pairwise_lt_range n).imp_of_mem ?_
  intro a b ha hb hab
  exact timeAt_lt n hab (List.mem_range.mp hb)

lemma linspace30_getD (n i : ℕ) :
    (linspace30 n).getD i 0 = if i < n then timeAt n i else 0 := by
  unfold linspace30
  by_cases h : i < n
  · simp [List.getD_eq_getElem?_getD, h]
  · have hlen : ((List.range n).map (timeAt n)).length = n := by simp
    simp [List.getD_eq_getElem?_getD, List.getElem?_eq_none, hlen, h, Nat.le_of_not_lt]

/-- **C3 (counterexample).** The claim puts every time value in the
half-open interval [0, 30), but `np.linspace(0, 30, n)` includes its
endpoint: already for `num_points = 2` the candidate generator returns the
time value 30. -/
theorem claim_C3_counterexample :
    (30 : ℚ) ∈ (generate_candidate 2 (fun _ => 0)).time ∧ ¬ ((30 : ℚ) < 30) := by
  constructor
  · show (30 : ℚ) ∈ linspace30 2
    norm_num [linspace30, timeAt, List.range_succ]
  · norm_num

/-- **C3 (amended).** For every generator entry point and every requested
`num_points`, the time and flux sequences have length exactly `num_points`,
and the time sequence is strictly increasing with every value in the
*closed* interval [0, 30] (the last grid point is exactly 30). -/
theorem claim_C3_amended :
    ∀ (p td dur : ℚ) (radius : Option ℚ) (noise : ℕ → ℚ) (anomaly : String)
      (qsin : ℚ → ℚ) (qpi : ℚ) (n i : ℕ),
    (generate_confirmed_planet p td dur n radius noise).time = linspace30 n
    ∧ (generate_confirmed_planet p td dur n radius noise).time.length = n
    ∧ (generate_confirmed_planet p td dur n radius noise).flux.length = n
    ∧ (generate_false_positive n anomaly noise qsin qpi).time = linspace30 n
    ∧ (generate_false_positive n anomaly noise qsin qpi).time.length = n
    ∧ (generate_false_positive n anomaly noise qsin qpi).flux.length = n
    ∧ (generate_candidate n noise).time = linspace30 n
    ∧ (generate_candidate n noise).time.length = n
    ∧ (generate_candidate n noise).flux.length = n
    ∧ (linspace30 n).Pairwise (· < ·)
    ∧ 0 ≤ (linspace30 n).getD i 0
    ∧ (linspace30 n).getD i 0 ≤ 30 := by
  intro p td dur radius noise anomaly qsin qpi n i
  have hfp : (generate_false_positive n anomaly noise qsin qpi).time = linspace30 n
      ∧ (generate_false_positive n anomaly noise qsin qpi).time.length = n
      ∧ (generate_false_positive n anomaly noise qsin qpi).flux.length = n := by
    unfold generate_false_positive
    split_ifs <;> simp [linspace30]
  refine ⟨rfl, ?_, ?_, hfp.1, hfp.2.1, hfp.2.2, rfl, ?_, ?_,
      pairwise_linspace30 n, ?_, ?_⟩
  · simp [generate_confirmed_planet, linspace30]
  · simp [generate_confirmed_planet]
  · simp [generate_candidate, linspace30]
  · simp [generate_candidate]
  · rw [linspace30_getD]
    split
    · exact timeAt_nonneg n i
    · exact le_refl 0
  · rw [linspace30_getD]
    split
    · exact timeAt_le_30 n i (by assumption)
    · norm_num

/-- **C6.** With a planet radius supplied, the depth used is
`(planet_radius_earth * 6371 / (1.0 * 696000))^2`, overriding the
`transit_depth` argument, and a computed depth below 0.0005 is amplified
100x; for `planet_radius_earth = 1.1` the raw depth is below 0.0005 and is
amplified. -/
theorem claim_C6 : ∀ (td r s p dur : ℚ) (n : ℕ) (noise : ℕ → ℚ),
    calculate_realistic_depth r s = (r * 6371 / (s * 696000)) ^ 2
    ∧ effectiveDepth td (some r)
        = (if calculate_realistic_depth r 1 < 5/10000
           then calculate_realistic_depth r 1 * 100
           else calculate_realistic_depth r 1)
    ∧ generate_confirmed_planet p td dur n (some r) noise
        = generate_confirmed_planet p (effectiveDepth 0 (some r)) dur n none noise
    ∧ calculate_realistic_depth (11/10) 1 < 5/10000
    ∧ effectiveDepth td (some (11/10)) = calculate_realistic_depth (11/10) 1 * 100 := by
  intro td r s p dur n noise
  have hsmall : calculate_realistic_depth (11/10) 1 < 5/10000 := by
    norm_num [calculate_realistic_depth]
  refine ⟨rfl, rfl, rfl, hsmall, ?_⟩
  simp only [effectiveDepth, hsmall, if_true]

/-- The transit-membership predicate exactly as the claim words it
(spec §4.2): half-width `min(0.04, transit_duration/(period_days*24))` and
the half-open phase window `[0.5 - half_width, 0.5 + half_width)`. -/
def claimInTransit (p dur t : ℚ) : Bool :=
  let hw := min (4/100) (dur / (p * 24))
  decide (1/2 - hw ≤ phaseOf p t) && decide (phaseOf p t < 1/2 + hw)

/-- **C5 (counterexample).** The quantity `min(0.04, duration/(period*24))`
is the code's *full* window width, not its half-width, and the code's window
is open at both ends.  With `period_days = 62.5`, `transit_duration = 45`
and `num_points = 2`, the sample at t = 30 has phase 0.48: the claim's
window `[0.47, 0.53)` contains it, the code's window `(0.485, 0.515)` does
not, and the generated flux at that sample is an undipped `1`. -/
theorem claim_C5_counterexample :
    claimInTransit (125/2) 45 (timeAt 2 1) = true
    ∧ inTransit (125/2) 45 (timeAt 2 1) = false
    ∧ ((generate_confirmed_planet (125/2) (1/100) 45 2 none (fun _ => 0)).flux).getD 1 0
        = 1 := by
  have ht : timeAt 2 1 = 30 := by norm_num [timeAt]
  have hfloor : (⌊(30 : ℚ) / (125/2)⌋ : ℤ) = 0 := by
    rw [Int.floor_eq_iff] ; norm_num
  have hphase : phaseOf (125/2) (timeAt 2 1) = 12/25 := by
    rw [ht]
    rw [phaseOf, fmodQ, hfloor]
    norm_num
  have hw : transitWidth (125/2) 45 = 3/100 := by
    norm_num [transitWidth]
  have hin : inTransit (125/2) 45 (timeAt 2 1) = false := by
    rw [inTransit]
    simp only [hphase, hw]
    norm_num
  refine ⟨?_, hin, ?_⟩
  · rw [claimInTransit]
    simp only [hphase]
    norm_num
  · show ((List.range 2).map
      (fun i => 1 + (fun _ => (0:ℚ)) i -
        (if confirmedInT (125/2) 45 2 i then
          confirmedDf (125/2) 45 (effectiveDepth (1/100) none) 2 i else 0))).getD 1 0 = 1
    have h1 : confirmedInT (125/2) 45 2 1 = false := by
      rw [confirmedInT]; exact hin
    norm_num [List.range_succ, h1]

/-- **C5 (amended).** A sample is inside a transit exactly when its phase
lies in the *open* window
`(0.5 - w/2, 0.5 + w/2)` where `w = min(0.04, transit_duration/(period_days*24))`
(so the half-width is half the claimed quantity, and the left endpoint is
excluded); for such a sample the flux decrement is
`depth * (1 - 0.1*(1 - rp^2)) * (1 - 0.2*|rp|)` with
`rp = (phase - 0.5)/(w/2)`. -/
theorem claim_C5_amended :
    ∀ (p td dur : ℚ) (radius : Option ℚ) (noise : ℕ → ℚ) (n i : ℕ),
    (inTransit p dur (timeAt n i) = true ↔
      (1/2 - transitWidth p dur / 2 < phaseOf p (timeAt n i)
        ∧ phaseOf p (timeAt n i) < 1/2 + transitWidth p dur / 2))
    ∧ ((generate_confirmed_planet p td dur n radius noise).flux)[i]?
        = (if i < n then
            some (1 + noise i -
              (if inTransit p dur (timeAt n i) then
                effectiveDepth td radius
                  * (1 - (1/10) * (1 - ((phaseOf p (timeAt n i) - 1/2)
                      / (transitWidth p dur / 2)) ^ 2))
                  * (1 - |(phaseOf p (timeAt n i) - 1/2)
                      / (transitWidth p dur / 2)| * (2/10))
              else 0))
          else none) := by
  intro p td dur radius noise n i
  constructor
  · simp [inTransit]
  · show ((List.range n).map
        (fun j => 1 + noise j -
          (if confirmedInT p dur n j then
            confirmedDf p dur (effectiveDepth td radius) n j else 0)))[i]?
      = _
    rw [List.getElem?_map]
    by_cases h : i < n
    · rw [List.getElem?_range h]
      simp only [Option.map_some', h, if_true]
      rfl
    · rw [List.getElem?_eq_none (by simpa using Nat.le_of_not_lt h)]
      simp [h]

/-! ## Transit-region invariants (claim C4) -/

/-- The running maximum of `df` over the in-transit indices of `[s, e]`
(with `df s` always contributing): the value the loop of data_generator.py
lines 83-94 accumulates into a region's `depth` field. -/
def regMax (df : ℕ → ℚ) (inT : ℕ → Bool) (s : ℕ) : ℕ → ℚ
  | 0 => df s
  | e + 1 =>
      if e + 1 ≤ s then df s
      else if inT (e + 1) then max (regMax df inT s e) (df (e + 1))
      else regMax df inT s e

lemma regMax_self (df : ℕ → ℚ) (inT : ℕ → Bool) (s : ℕ) :
    regMax df inT s s = df s := by
  cases s with
  | zero => rfl
  | succ m =>
      unfold regMax
      rw [if_pos (le_refl _)]

lemma regMax_succ (df : ℕ → ℚ) (inT : ℕ → Bool) (s e : ℕ) :
    regMax df inT s (e + 1) =
      if e + 1 ≤ s then df s
      else if inT (e + 1) then max (regMax df inT s e) (df (e + 1))
      else regMax df inT s e := rfl

lemma regMax_stable (df : ℕ → ℚ) (inT : ℕ → Bool) (s e : ℕ) :
    ∀ m, s ≤ e → e ≤ m → (∀ j, e < j → j ≤ m → inT j = false) →
    regMax df inT s m = regMax df inT s e := by
  intro m
  induction m with
  | zero =>
      intro _ hem _
      have : e = 0 := by omega
      rw [this]
  | succ k ih =>
      intro hse hem hgap
      by_cases h : e = k + 1
      · rw [h]
      · have hek : e ≤ k := by omega
        have hks : ¬ (k + 1 ≤ s) := by omega
        have hfalse : inT (k + 1) = false := hgap (k + 1) (by omega) (le_refl _)
        rw [regMax_succ, if_neg hks, if_neg (by simp [hfalse])]
        exact ih hse hek (fun j h1 h2 => hgap j h1 (by omega))

lemma regMax_extend (df : ℕ → ℚ) (inT : ℕ → Bool) (s e k : ℕ)
    (hse : s ≤ e) (hek : e < k) (hk : inT k = true)
    (hgap : ∀ j, e < j → j < k → inT j = false) :
    regMax df inT s k = max (regMax df inT s e) (df k) := by
  obtain ⟨m, rfl⟩ : ∃ m, k = m + 1 := ⟨k - 1, by omega⟩
  have hks : ¬ (m + 1 ≤ s) := by omega
  rw [regMax_succ, if_neg hks, if_pos hk]
  rw [regMax_stable df inT s e m hse (by omega) (fun j h1 h2 => hgap j h1 (by omega))]

/-- The accumulator of the region loop after the first `k` iterations
(most recent region first). -/
def foldAcc (inT : ℕ → Bool) (df : ℕ → ℚ) (k : ℕ) : List Region :=
  (List.range k).foldl (regionStep inT df) []

/-- Loop invariant of the region bookkeeping: every recorded region is
well-formed with in-transit endpoints and depth equal to the running
maximum of `df` over it, the (reversed) list keeps a gap of more than 10
samples between consecutive regions, and every in-transit index processed
so far is covered by some region. -/
def RegInv (inT : ℕ → Bool) (df : ℕ → ℚ) (k : ℕ) (acc : List Region) : Prop :=
  (∀ r ∈ acc, r.start_index ≤ r.end_index ∧ r.end_index < k
      ∧ inT r.start_index = true ∧ inT r.end_index = true
      ∧ r.depth = regMax df inT r.start_index r.end_index)
  ∧ acc.Pairwise (fun a b => (b.end_index : Int) < (a.start_index : Int) - 10)
  ∧ (∀ j, j < k → inT j = true →
      ∃ r ∈ acc, r.start_index ≤ j ∧ j ≤ r.end_index)

lemma regInv_fold (inT : ℕ → Bool) (df : ℕ → ℚ) :
    ∀ k, RegInv inT df k (foldAcc inT df k) := by
  intro k
  induction k with
  | zero =>
      refine ⟨?_, ?_, ?_⟩
      · intro r hr
        simp [foldAcc] at hr
      · simp [foldAcc]
      · intro j hj
        omega
  | succ k ih =>
      have hstep : foldAcc inT df (k + 1) = regionStep inT df (foldAcc inT df k) k := by
        unfold foldAcc
        rw [List.range_succ, List.foldl_append]
        rfl
      obtain ⟨hA, hB, hC⟩ := ih
      rw [hstep]
      by_cases hT : inT k = true
      · cases hacc : foldAcc inT df k with
        | nil =>
            rw [hacc] at hA hB hC
            simp only [regionStep, hT, if_true]
            refine ⟨?_, ?_, ?_⟩
            · intro r hr
              simp only [List.mem_singleton] at hr
              subst hr
              exact ⟨le_refl _, Nat.lt_succ_self _, hT, hT, (regMax_self df inT k).symm⟩
            · simp
            · intro j hj hTj
              have hjk : j = k := by
                rcases Nat.lt_succ_iff_lt_or_eq.mp hj with h | h
                · exact absurd (hC j h hTj) (by simp)
                · exact h
              exact ⟨⟨k, k, df k⟩, by simp, hjk.ge, hjk.le⟩
        | cons r rest =>
            rw [hacc] at hA hB hC
            have hr_self := hA r (by simp)
            obtain ⟨hrse, hrek, hrsT, hreT, hrd⟩ := hr_self
            simp only [regionStep, hT, if_true]
            by_cases hgap : (r.end_index : Int) < (k : Int) - 10
            · -- a new region opens at k
              rw [if_pos hgap]
              refine ⟨?_, ?_, ?_⟩
              · intro r₂ hr₂
                rcases List.mem_cons.mp hr₂ with h | h
                · subst h
                  exact ⟨le_refl _, Nat.lt_succ_self _, hT, hT, (regMax_self df inT k).symm⟩
                · obtain ⟨h1, h2, h3, h4, h5⟩ := hA r₂ h
                  exact ⟨h1, by omega, h3, h4, h5⟩
              · refine List.Pairwise.cons ?_ hB
                intro b hb
                rcases List.mem_cons.mp hb with h | h
                · show (b.end_index : Int) < (k : Int) - 10
                  rw [h]
                  omega
                · have hrb := (List.pairwise_cons.mp hB).1 b h
                  show (b.end_index : Int) < (k : Int) - 10
                  omega
              · intro j hj hTj
                rcases Nat.lt_succ_iff_lt_or_eq.mp hj with h | h
                · obtain ⟨r₂, hmem, hcov⟩ := hC j h hTj
                  exact ⟨r₂, List.mem_cons_of_mem _ hmem, hcov⟩
                · exact ⟨⟨k, k, df k⟩, by simp, h.ge, h.le⟩
            · -- the current region is extended to k
              rw [if_neg hgap]
              have hnogap : ∀ j, r.end_index < j → j < k → inT j = false := by
                intro j h1 h2
                by_contra hcon
                have hTj : inT j = true := by
                  cases h : inT j
                  · exact absurd h hcon
                  · rfl
                obtain ⟨r₂, hmem, hcov1, hcov2⟩ := hC j h2 hTj
                rcases List.mem_cons.mp hmem with h | h
                · subst h
                  omega
                · have hrb := (List.pairwise_cons.mp hB).1 r₂ h
                  have := hA r₂ (List.mem_cons_of_mem _ h)
                  omega
              have hrek' : r.end_index < k := by
                by_contra hcon
                omega
              refine ⟨?_, ?_, ?_⟩
              · intro r₂ hr₂
                rcases List.mem_cons.mp hr₂ with h | h
                · subst h
                  refine ⟨show r.start_index ≤ k by omega, Nat.lt_succ_self _, hrsT, hT, ?_⟩
                  show max r.depth (df k) = regMax df inT r.start_index k
                  rw [hrd, ← regMax_extend df inT r.start_index r.end_index k hrse hrek' hT hnogap]
                · obtain ⟨h1, h2, h3, h4, h5⟩ := hA r₂ (List.mem_cons_of_mem _ h)
                  exact ⟨h1, by omega, h3, h4, h5⟩
              · refine List.Pairwise.cons ?_ (List.pairwise_cons.mp hB).2
                intro b hb
                have hrb := (List.pairwise_cons.mp hB).1 b hb
                show (b.end_index : Int) < (r.start_index : Int) - 10
                omega
              · intro j hj hTj
                rcases Nat.lt_succ_iff_lt_or_eq.mp hj with h | h
                · obtain ⟨r₂, hmem, hcov1, hcov2⟩ := hC j h hTj
                  rcases List.mem_cons.mp hmem with h2 | h2
                  · subst h2
                    exact ⟨⟨r₂.start_index, k, max r₂.depth (df k)⟩, by simp,
                      hcov1, show j ≤ k by omega⟩
                  · exact ⟨r₂, List.mem_cons_of_mem _ h2, hcov1, hcov2⟩
                · exact ⟨⟨r.start_index, k, max r.depth (df k)⟩, by simp,
                    show r.start_index ≤ j by omega, show j ≤ k by omega⟩
      · have hT' : inT k = false := by
          cases h : inT k
          · rfl
          · exact absurd h hT
        simp only [regionStep, hT', Bool.false_eq_true, if_false]
        refine ⟨?_, hB, ?_⟩
        · intro r hr
          obtain ⟨h1, h2, h3, h4, h5⟩ := hA r hr
          exact ⟨h1, by omega, h3, h4, h5⟩
        · intro j hj hTj
          rcases Nat.lt_succ_iff_lt_or_eq.mp hj with h | h
          · exact hC j h hTj
          · subst h
            exact absurd hTj (by simp [hT'])

/-- All claim C4 properties, stated for the creation-ordered region list. -/
lemma confirmedRegions_spec (inT : ℕ → Bool) (df : ℕ → ℚ) (n : ℕ) :
    (∀ r ∈ confirmedRegions inT df n,
        r.start_index ≤ r.end_index ∧ r.end_index < n
        ∧ inT r.start_index = true ∧ inT r.end_index = true
        ∧ r.depth = regMax df inT r.start_index r.end_index)
    ∧ (confirmedRegions inT df n).Pairwise
        (fun a b => (a.end_index : Int) + 10 < (b.start_index : Int))
    ∧ (confirmedRegions inT df n).Pairwise
        (fun a b => a.end_index < b.start_index ∧ a.start_index < b.start_index)
    ∧ (∀ j, j < n → inT j = true →
        ∃ r ∈ confirmedRegions inT df n, r.start_index ≤ j ∧ j ≤ r.end_index) := by
  obtain ⟨hA, hB, hC⟩ := regInv_fold inT df n
  have hmem : ∀ r, r ∈ confirmedRegions inT df n ↔ r ∈ foldAcc inT df n := by
    intro r
    unfold confirmedRegions foldAcc
    exact List.mem_reverse
  have hpw : (confirmedRegions inT df n).Pairwise
      (fun a b => (a.end_index : Int) + 10 < (b.start_index : Int)) := by
    unfold confirmedRegions
    rw [List.pairwise_reverse]
    exact hB.imp (fun h => by omega)
  refine ⟨?_, hpw, ?_, ?_⟩
  · intro r hr
    exact hA r ((hmem r).mp hr)
  · refine hpw.imp_of_mem ?_
    intro a b ha hb hab
    have hA_a := hA a ((hmem a).mp ha)
    omega
  · intro j hj hTj
    obtain ⟨r, hmem2, hcov⟩ := hC j hj hTj
    exact ⟨r, (hmem r).mpr hmem2, hcov⟩

/-- **C4.** For `generate_confirmed_planet` with `period_days > 0`, every
returned region satisfies `0 ≤ start_index ≤ end_index < num_points`; the
regions are mutually non-overlapping and sorted by `start_index` (indeed
consecutive regions are separated by a gap of more than 10 samples); every
in-transit sample is covered by a region whose endpoints are in-transit
samples (a dip more than 10 samples past the previous region's end opens a
new region, anything closer extends the current one); and each region's
depth is the running maximum `regMax` of the depth factors accumulated
into it. -/
theorem claim_C4 :
    ∀ (p td dur : ℚ) (radius : Option ℚ) (noise : ℕ → ℚ) (n : ℕ),
    0 < p →
    (∀ r ∈ (generate_confirmed_planet p td dur n radius noise).regions,
        r.start_index ≤ r.end_index ∧ r.end_index < n
        ∧ confirmedInT p dur n r.start_index = true
        ∧ confirmedInT p dur n r.end_index = true
        ∧ r.depth = regMax (confirmedDf p dur (effectiveDepth td radius) n)
            (confirmedInT p dur n) r.start_index r.end_index)
    ∧ ((generate_confirmed_planet p td dur n radius noise).regions).Pairwise
        (fun a b => (a.end_index : Int) + 10 < (b.start_index : Int))
    ∧ ((generate_confirmed_planet p td dur n radius noise).regions).Pairwise
        (fun a b => a.end_index < b.start_index ∧ a.start_index < b.start_index)
    ∧ (∀ j, j < n → confirmedInT p dur n j = true →
        ∃ r ∈ (generate_confirmed_planet p td dur n radius noise).regions,
          r.start_index ≤ j ∧ j ≤ r.end_index) := by
  intro p td dur radius noise n _
  exact confirmedRegions_spec (confirmedInT p dur n)
    (confirmedDf p dur (effectiveDepth td radius) n) n

/-- Witness for C4: the hypotheses are satisfiable at concrete inputs. -/
theorem claim_C4_witness :
    (0 : ℚ) < 7/2
    ∧ (∀ r ∈ (generate_confirmed_planet (7/2) (1/100) 3 40 none (fun _ => 0)).regions,
        r.start_index ≤ r.end_index ∧ r.end_index < 40
        ∧ confirmedInT (7/2) 3 40 r.start_index = true
        ∧ confirmedInT (7/2) 3 40 r.end_index = true
        ∧ r.depth = regMax (confirmedDf (7/2) 3 (effectiveDepth (1/100) none) 40)
            (confirmedInT (7/2) 3 40) r.start_index r.end_index) := by
  refine ⟨by norm_num, ?_⟩
  exact (claim_C4 (7/2) (1/100) 3 none (fun _ => 0) 40 (by norm_num)).1

/-! ## Attribution engine (backend/services/explainer.py)

Importance arrays are built as index functions `ℕ → ℚ` and materialized to
lists of length `n = len(light_curve)`; elementwise numpy operations on
aligned arrays become pointwise function operations.  `np.exp`, `np.convolve`
(mode same) and `scipy.ndimage.gaussian_filter1d` are abstract parameters
`qexp`, `conv`, `gfilter`; the seeded normal draw is the abstract
`npNormal (npSeed 42) 0 (1/100) n`.  `np.nan_to_num` is the identity on the
exact rationals used here; its replacement behaviour on non-finite floats is
modelled separately by `NpFloat`/`nan_to_num` below. -/

/-- `np.mean` (exact; the sources only apply it to nonempty arrays). -/
def npMean (xs : List ℚ) : ℚ := xs.sum / (xs.length : ℚ)

/-- In-bounds array indexing (equivalent to `List.getD xs i 0`, defined by
structural recursion so that concrete instances reduce). -/
def nthD : List ℚ → ℕ → ℚ
  | [], _ => 0
  | x :: _, 0 => x
  | _ :: xs, n + 1 => nthD xs n

/-- `np.median`: middle element of the sorted array, or the mean of the two
middle elements for even length. -/
def npMedian (xs : List ℚ) : ℚ :=
  let s := List.insertionSort (· ≤ ·) xs
  let n := xs.length
  if n = 0 then 0
  else if n % 2 = 1 then nthD s (n / 2)
  else (nthD s (n / 2 - 1) + nthD s (n / 2)) / 2

/-- `np.max` on an array of nonnegative values (the only use in the source:
`np.max(flux_variance)` over absolute deviations). -/
def npMax0 (xs : List ℚ) : ℚ := xs.foldl max 0

/-- `np.percentile(xs, q)` with the default linear-interpolation method:
virtual position `q/100 * (n-1)` between the sorted order statistics. -/
def percentileLinear (xs : List ℚ) (q : ℚ) : ℚ :=
  let s := List.insertionSort (· ≤ ·) xs
  let n := xs.length
  if n = 0 then 0
  else
    let pos := q / 100 * ((n : ℚ) - 1)
    let k : ℕ := (⌊pos⌋).toNat
    let frac := pos - (k : ℚ)
    let lo := nthD s k
    let hi := nthD s (min (k + 1) (n - 1))
    lo + frac * (hi - lo)

/-- `np.max(np.abs(xs))` (with value 0 on the empty array). -/
def maxAbs (xs : List ℚ) : ℚ := xs.foldl (fun a x => max a |x|) 0

/-- The final normalization of explainer.py lines 186-188: rescale so the
maximum absolute value becomes 0.6, skipped when `max_abs > 0` fails. -/
def rescaleStep (xs : List ℚ) : List ℚ :=
  let max_abs := maxAbs xs
  if 0 < max_abs then xs.map (fun x => x / max_abs * (6/10)) else xs

/-- An IEEE float as seen by `np.nan_to_num`: NaN, an infinity, or a finite
value (modelled exactly). -/
inductive NpFloat where
  | nan
  | posinf
  | neginf
  | val (q : ℚ)
deriving DecidableEq, Repr

/-- `np.nan_to_num(x, nan=nanv, posinf=pos, neginf=neg)` on one element:
every non-finite input is replaced by the corresponding finite sentinel
(explainer.py line 191 uses `nan=0.0, posinf=0.6, neginf=-0.6`). -/
def nan_to_num (x : NpFloat) (nanv pos neg : ℚ) : ℚ :=
  match x with
  | .nan => nanv
  | .posinf => pos
  | .neginf => neg
  | .val q => q

/-- One entry of `top_contributing_regions` (explainer.py lines 249-254). -/
structure TopRegion where
  start_time : ℚ
  end_time : ℚ
  importance : ℚ
  contribution_percent : ℚ
deriving DecidableEq, Repr

/-- `regions.sort(key=lambda x: abs(x["importance"]), reverse=True)`:
descending by absolute importance (stable, like Python sort). -/
def topRegionLe (a b : TopRegion) : Prop := |b.importance| ≤ |a.importance|

instance : DecidableRel topRegionLe :=
  fun a b => inferInstanceAs (Decidable (|b.importance| ≤ |a.importance|))

instance : IsTotal TopRegion topRegionLe := ⟨fun _ _ => le_total _ _⟩

instance : IsTrans TopRegion topRegionLe := ⟨fun _ _ _ h1 h2 => le_trans h2 h1⟩

/-- The candidate region closed at scan position `e` (exclusive) having
started at `s` (explainer.py lines 241-254): start/end times, mean signed
importance over the run, and `|importance| * 100` as contribution percent. -/
def mkTopRegion (fi tp : List ℚ) (s e : ℕ) : TopRegion :=
  let imp := npMean ((fi.drop s).take (e - s))
  { start_time := tp.getD s 0
    end_time := tp.getD (e - 1) 0
    importance := imp
    contribution_percent := |imp| * 100 }

/-- The importance mask of explainer.py lines 226-230:
`abs(importance[i]) > percentile(abs(importance), 80)`. -/
def importMask (fi : List ℚ) : ℕ → Bool :=
  fun i => decide (percentileLinear (fi.map (fun x => |x|)) 80 < |fi.getD i 0|)

/-- One iteration of the region scan of explainer.py lines 236-255, with
state `(in_region, region_start, regions)`. -/
def scanStep (m : ℕ → Bool) (close : ℕ → ℕ → TopRegion)
    (st : Bool × ℕ × List TopRegion) (i : ℕ) : Bool × ℕ × List TopRegion :=
  if m i ∧ ¬ st.1 then (true, i, st.2.2)
  else if ¬ m i ∧ st.1 then (false, st.2.1, st.2.2 ++ [close st.2.1 i])
  else st

/-- The candidate regions produced by the scan loop (before sorting); a run
still open when the loop ends is never closed, hence never recorded. -/
def topRegionsRaw (fi tp : List ℚ) : List TopRegion :=
  ((List.range fi.length).foldl (scanStep (importMask fi) (mkTopRegion fi tp))
    (false, 0, [])).2.2

/-- `_identify_top_regions` (explainer.py lines 215-259) with the call-site
value `top_k = 5`. -/
def identify_top_regions (fi tp : List ℚ) : List TopRegion :=
  (List.insertionSort topRegionLe (topRegionsRaw fi tp)).take 5

/-- `_generate_explanation` (explainer.py lines 261-305); `fmt` is the
abstract `%.1f` float formatter. -/
def generate_explanation (fmt : ℚ → String) (classification : String)
    (confidence : ℚ) (top_regions : List TopRegion)
    (transit_regions : List Region) : String :=
  if classification = "exoplanet" then
    match transit_regions with
    | [] =>
        "Model detected EXOPLANET with " ++ fmt (confidence * 100) ++
        "% confidence, though no clear transit regions were identified. This may indicate a subtle or complex signal."
    | _ =>
        let n_transits := transit_regions.length
        let transit_text := toString n_transits ++ " periodic transit event" ++
          (if 1 < n_transits then "s" else "")
        let time_info :=
          match top_regions with
          | [] => ""
          | tr :: _ =>
              if 0 < tr.importance then
                " The strongest supporting evidence appears at " ++ fmt tr.start_time ++
                "-" ++ fmt tr.end_time ++ " days (contributing +" ++
                fmt tr.contribution_percent ++ "% toward exoplanet classification)."
              else ""
        "Model detected EXOPLANET with " ++ fmt (confidence * 100) ++
        "% confidence based on " ++ transit_text ++ "." ++ time_info ++
        " Blue/positive SHAP regions show transit dips that SUPPORT the exoplanet detection."
  else
    let reason :=
      match top_regions with
      | [] => "lack of convincing periodic transit patterns"
      | tr :: _ =>
          if 0 < tr.importance then
            "high noise/variability at " ++ fmt tr.start_time ++ "-" ++
            fmt tr.end_time ++ " days (+" ++ fmt tr.contribution_percent ++ "%)"
          else
            "suspicious dips at " ++ fmt tr.start_time ++ "-" ++ fmt tr.end_time ++
            " days were insufficient evidence (" ++ fmt tr.contribution_percent ++ "%)"
    "Model classified as NO PLANET with " ++ fmt (confidence * 100) ++
    "% confidence due to " ++ reason ++
    ". Blue/positive SHAP shows features SUPPORTING rejection (noise, irregularity), while red/negative shows weak transit-like features that were insufficient."

/-- The dictionary returned by `_generate_synthetic_shap`
(explainer.py lines 207-213; also models.schemas.SHAPExplanation). -/
structure ShapOut where
  feature_importance : List ℚ
  top_contributing_regions : List TopRegion
  explanation_summary : String
  base_value : ℚ
  predicted_value : ℚ
deriving Repr

/-- `_generate_synthetic_shap` (explainer.py lines 55-213).  `rng` is the
incoming state of numpy's process-wide generator; the body starts with
`np.random.seed(42)`, so `rng` is immediately replaced by `npSeed 42` and
never read. -/
def generate_synthetic_shap {R : Type} (npSeed : ℕ → R)
    (npNormal : R → ℚ → ℚ → ℕ → ℕ → ℚ) (qexp : ℚ → ℚ)
    (conv : List ℚ → List ℚ → List ℚ) (gfilter : List ℚ → List ℚ)
    (fmt : ℚ → String) (rng : R) (light_curve time_points : List ℚ)
    (classification : String) (confidence : ℚ)
    (transit_regions : List Region) : ShapOut :=
  let n := light_curve.length
  let st := npSeed 42
  let noiseBG : ℕ → ℚ := npNormal st 0 (1/100) n
  let base_value : ℚ := 1/2
  let branch : (ℕ → ℚ) × ℚ :=
    if classification = "exoplanet" then
      let withBumps : ℕ → ℚ :=
        (transit_regions.enum).foldl (fun f ri =>
          let rank := ri.1
          let r := ri.2
          let center_time := time_points.getD ((r.start_index + r.end_index) / 2) 0
          let width := ((r.end_index : ℚ) - (r.start_index : ℚ)) * (3/2)
          let scale := min (r.depth * 600 * confidence) (8/10) * (9/10) ^ rank
          fun i => f i +
            qexp (-(1/2) * (|time_points.getD i 0 - center_time| / (width * (15/100))) ^ 2)
              * scale)
          (fun i => 0 + noiseBG i)
      let withStab : ℕ → ℚ := fun i =>
        withBumps i + (1 - |light_curve.getD i 0 - 1|) * (2/100) * confidence
      let flux_noise : ℕ → ℚ := fun i => |light_curve.getD i 0 - npMedian light_curve|
      let thr := percentileLinear ((List.range n).map flux_noise) 80
      let masked : ℕ → ℚ := fun i =>
        if thr < flux_noise i then withStab i - (5/100) * confidence else withStab i
      (masked, base_value + npMean ((List.range n).map masked))
    else
      let flux_variance : ℕ → ℚ := fun i => |light_curve.getD i 0 - npMean light_curve|
      let max_var := npMax0 ((List.range n).map flux_variance)
      let normalized : ℕ → ℚ := fun i =>
        if 1/10^10 < max_var then flux_variance i / max_var else 0
      let window := max 3 (n / 50)
      let smoothed := conv ((List.range n).map normalized)
        (List.replicate window ((1 : ℚ) / (window : ℚ)))
      let f1 : ℕ → ℚ := fun i => noiseBG i + smoothed.getD i 0 * (4/10) * confidence
      let f2 : ℕ → ℚ :=
        transit_regions.foldl (fun f r =>
          let center_time := time_points.getD ((r.start_index + r.end_index) / 2) 0
          let width := ((r.end_index : ℚ) - (r.start_index : ℚ)) * (3/2)
          fun i => f i -
            qexp (-(1/2) * (|time_points.getD i 0 - center_time| / (width * (15/100))) ^ 2)
              * (2/10) * confidence) f1
      let f3 : ℕ → ℚ := fun i =>
        f2 i + (1 - |light_curve.getD i 0 - npMedian light_curve|) * (1/100) * confidence
      let f4 : ℕ → ℚ := fun i => max (-(8/10)) (min (f3 i) (8/10))
      (f4, base_value + npMean ((List.range n).map f4))
  let fiFinal := rescaleStep (gfilter ((List.range n).map branch.1))
  let top := identify_top_regions fiFinal time_points
  { feature_importance := fiFinal
    top_contributing_regions := top
    explanation_summary :=
      generate_explanation fmt classification confidence top transit_regions
    base_value := base_value
    predicted_value := max 0 (min branch.2 1) }

/-- `explain_prediction` (explainer.py lines 25-53) delegates to
`_generate_synthetic_shap`. -/
def explain_prediction {R : Type} (npSeed : ℕ → R)
    (npNormal : R → ℚ → ℚ → ℕ → ℕ → ℚ) (qexp : ℚ → ℚ)
    (conv : List ℚ → List ℚ → List ℚ) (gfilter : List ℚ → List ℚ)
    (fmt : ℚ → String) (rng : R) (light_curve time_points : List ℚ)
    (classification : String) (confidence : ℚ)
    (transit_regions : List Region) : ShapOut :=
  generate_synthetic_shap npSeed npNormal qexp conv gfilter fmt rng
    light_curve time_points classification confidence transit_regions

lemma foldl_max_le_init (xs : List ℚ) :
    ∀ a : ℚ, a ≤ xs.foldl (fun b x => max b |x|) a := by
  induction xs with
  | nil => intro a; simp
  | cons y ys ih =>
      intro a
      simp only [List.foldl_cons]
      exact le_trans (le_max_left a |y|) (ih _)

lemma mem_le_foldl_max (xs : List ℚ) :
    ∀ (a x : ℚ), x ∈ xs → |x| ≤ xs.foldl (fun b y => max b |y|) a := by
  induction xs with
  | nil =>
      intro a x hx
      simp at hx
  | cons y ys ih =>
      intro a x hx
      rcases List.mem_cons.mp hx with h | h
      · subst h
        exact le_trans (le_max_right a |x|) (foldl_max_le_init ys _)
      · exact ih _ x h

lemma maxAbs_nonneg (xs : List ℚ) : 0 ≤ maxAbs xs := foldl_max_le_init xs 0

lemma rescaleStep_bound (xs : List ℚ) : ∀ y ∈ rescaleStep xs, |y| ≤ 6/10 := by
  intro y hy
  unfold rescaleStep at hy
  by_cases h : 0 < maxAbs xs
  · rw [if_pos h] at hy
    obtain ⟨x, hx, rfl⟩ := List.mem_map.mp hy
    have hxle : |x| ≤ maxAbs xs := mem_le_foldl_max xs 0 x hx
    rw [abs_mul, abs_div]
    have h1 : |x| / |maxAbs xs| ≤ 1 := by
      rw [abs_of_pos h]
      exact div_le_one_of_le₀ hxle (le_of_lt h)
    have h2 : |(6:ℚ)/10| = 6/10 := by norm_num
    calc |x| / |maxAbs xs| * |(6:ℚ)/10| ≤ 1 * (6/10) := by
          rw [h2]
          exact mul_le_mul_of_nonneg_right h1 (by norm_num)
      _ = 6/10 := by norm_num
  · rw [if_neg h] at hy
    have h0 : maxAbs xs = 0 := le_antisymm (not_lt.mp h) (maxAbs_nonneg xs)
    have hym : |y| ≤ maxAbs xs := mem_le_foldl_max xs 0 y hy
    have : |y| ≤ 0 := hym.trans (le_of_eq h0)
    linarith

lemma maxAbs_replicate_zero (n : ℕ) : maxAbs (List.replicate n 0) = 0 := by
  induction n with
  | zero => rfl
  | succ k ih =>
      unfold maxAbs at ih ⊢
      rw [List.replicate_succ, List.foldl_cons]
      simpa using ih

lemma getD_abs_bound (xs : List ℚ) (i : ℕ) (h : ∀ y ∈ xs, |y| ≤ 6/10) :
    |xs.getD i 0| ≤ 6/10 := by
  by_cases hi : i < xs.length
  · rw [List.getD_eq_getElem xs 0 hi]
    exact h _ (xs.getElem_mem hi)
  · rw [List.getD_eq_default xs 0 (Nat.le_of_not_lt hi)]
    norm_num

/-- **C7.** Every entry of the returned `feature_importance` is a finite
value of absolute value at most 0.6 (after the final rescale); the rescale
is skipped when the smoothed array is all zero (it is then left unchanged);
and the `nan_to_num` sanitization replaces every non-finite value by the
finite sentinels 0, 0.6, -0.6. -/
theorem claim_C7 : ∀ {R : Type} (npSeed : ℕ → R)
    (npNormal : R → ℚ → ℚ → ℕ → ℕ → ℚ) (qexp : ℚ → ℚ)
    (conv : List ℚ → List ℚ → List ℚ) (gfilter : List ℚ → List ℚ)
    (fmt : ℚ → String) (rng : R) (lc tp : List ℚ) (cls : String) (conf : ℚ)
    (regs : List Region) (i n : ℕ) (q : ℚ),
    |((explain_prediction npSeed npNormal qexp conv gfilter fmt rng
        lc tp cls conf regs).feature_importance).getD i 0| ≤ 6/10
    ∧ rescaleStep (List.replicate n 0) = List.replicate n 0
    ∧ nan_to_num NpFloat.nan 0 (6/10) (-(6/10)) = 0
    ∧ nan_to_num NpFloat.posinf 0 (6/10) (-(6/10)) = 6/10
    ∧ nan_to_num NpFloat.neginf 0 (6/10) (-(6/10)) = -(6/10)
    ∧ nan_to_num (NpFloat.val q) 0 (6/10) (-(6/10)) = q := by
  intro R npSeed npNormal qexp conv gfilter fmt rng lc tp cls conf regs i n q
  refine ⟨?_, ?_, rfl, rfl, rfl, rfl⟩
  · exact getD_abs_bound _ i (rescaleStep_bound _)
  · unfold rescaleStep
    rw [maxAbs_replicate_zero]
    norm_num

/-- **C10.** `explain_prediction` is deterministic: the incoming state of
the process-wide random generator is immediately overwritten by
`np.random.seed(42)`, so two calls with identical inputs return identical
`SHAPExplanation` structures whatever the generator state was. -/
theorem claim_C10 : ∀ {R : Type} (npSeed : ℕ → R)
    (npNormal : R → ℚ → ℚ → ℕ → ℕ → ℚ) (qexp : ℚ → ℚ)
    (conv : List ℚ → List ℚ → List ℚ) (gfilter : List ℚ → List ℚ)
    (fmt : ℚ → String) (rng1 rng2 : R) (lc tp : List ℚ) (cls : String)
    (conf : ℚ) (regs : List Region),
    explain_prediction npSeed npNormal qexp conv gfilter fmt rng1
        lc tp cls conf regs
      = explain_prediction npSeed npNormal qexp conv gfilter fmt rng2
        lc tp cls conf regs := by
  intro R npSeed npNormal qexp conv gfilter fmt rng1 rng2 lc tp cls conf regs
  rfl

/-! ## Maximal runs as the spec words them (claim C8) -/

/-- One step of a left-to-right maximal-run extractor (second definition,
written from the claim's words for comparison with the code's scan): the
state holds the start of the currently open run, if any, and the completed
runs `(start, last)` with inclusive endpoints. -/
def runsStep (m : ℕ → Bool) (st : Option ℕ × List (ℕ × ℕ)) (i : ℕ) :
    Option ℕ × List (ℕ × ℕ) :=
  match st.1, m i with
  | none, true => (some i, st.2)
  | none, false => st
  | some _, true => st
  | some s, false => (none, st.2 ++ [(s, i - 1)])

/-- All maximal runs of mask-true indices in `[0, n)`, *including* a run
that reaches the last index (which the claim says also becomes a candidate
region). -/
def specRuns (m : ℕ → Bool) (n : ℕ) : List (ℕ × ℕ) :=
  match (List.range n).foldl (runsStep m) (none, []) with
  | (none, rs) => rs
  | (some s, rs) => rs ++ [(s, n - 1)]

/-- The candidate regions as the claim describes them: one per maximal
above-threshold run. -/
def claimCandidates (fi tp : List ℚ) : List TopRegion :=
  (specRuns (importMask fi) fi.length).map
    (fun se => mkTopRegion fi tp se.1 (se.2 + 1))

/-- `top_contributing_regions` as the claim describes it: all maximal-run
candidates sorted by descending absolute importance, truncated to 5. -/
def claimTopRegions (fi tp : List ℚ) : List TopRegion :=
  (List.insertionSort topRegionLe (claimCandidates fi tp)).take 5

lemma scan_runs_rel (m : ℕ → Bool) (close : ℕ → ℕ → TopRegion) : ∀ k,
    ((List.range k).foldl (scanStep m close) (false, 0, [])).1
        = ((List.range k).foldl (runsStep m) (none, [])).1.isSome
    ∧ (∀ s0, ((List.range k).foldl (runsStep m) (none, [])).1 = some s0 →
        ((List.range k).foldl (scanStep m close) (false, 0, [])).2.1 = s0
        ∧ 0 < k ∧ s0 < k)
    ∧ (∀ se ∈ ((List.range k).foldl (runsStep m) (none, [])).2, se.2 + 1 < k)
    ∧ ((List.range k).foldl (scanStep m close) (false, 0, [])).2.2
        = ((List.range k).foldl (runsStep m) (none, [])).2.map
            (fun se => close se.1 (se.2 + 1)) := by
  intro k
  induction k with
  | zero =>
      refine ⟨rfl, ?_, ?_, rfl⟩
      · intro s0 h
        simp at h
      · intro se hse
        simp at hse
  | succ k ih =>
      obtain ⟨ih1, ih2, ih3, ih4⟩ := ih
      have hsc : (List.range (k+1)).foldl (scanStep m close) (false, 0, [])
          = scanStep m close ((List.range k).foldl (scanStep m close) (false, 0, [])) k := by
        rw [List.range_succ, List.foldl_append]
        rfl
      have hru : (List.range (k+1)).foldl (runsStep m) (none, [])
          = runsStep m ((List.range k).foldl (runsStep m) (none, [])) k := by
        rw [List.range_succ, List.foldl_append]
        rfl
      rw [hsc, hru]
      set sc := (List.range k).foldl (scanStep m close) (false, 0, []) with hsc_def
      set ru := (List.range k).foldl (runsStep m) (none, []) with hru_def
      cases hru1 : ru.1 with
      | none =>
          have hscb : sc.1 = false := by rw [ih1, hru1]; rfl
          cases hm : m k with
          | true =>
              have hstep_ru : runsStep m ru k = (some k, ru.2) := by
                unfold runsStep
                rw [hru1, hm]
              have hstep_sc : scanStep m close sc k = (true, k, sc.2.2) := by
                unfold scanStep
                rw [if_pos]
                simp [hm, hscb]
              rw [hstep_ru, hstep_sc]
              refine ⟨rfl, ?_, ?_, ?_⟩
              · intro s0 h
                have : s0 = k := by
                  simpa using h.symm
                exact ⟨this.symm, by omega, by omega⟩
              · intro se hse
                have := ih3 se hse
                omega
              · exact ih4
          | false =>
              have hstep_ru : runsStep m ru k = ru := by
                unfold runsStep
                rw [hru1, hm]
              have hstep_sc : scanStep m close sc k = sc := by
                unfold scanStep
                rw [if_neg (by simp [hm]), if_neg (by simp [hscb])]
              rw [hstep_ru, hstep_sc]
              refine ⟨ih1, ?_, ?_, ih4⟩
              · intro s0 h
                rw [hru1] at h
                simp at h
              · intro se hse
                have := ih3 se hse
                omega
      | some s0 =>
          obtain ⟨ihs, ihk, ihsk⟩ := ih2 s0 hru1
          have hscb : sc.1 = true := by rw [ih1, hru1]; rfl
          cases hm : m k with
          | true =>
              have hstep_ru : runsStep m ru k = ru := by
                unfold runsStep
                rw [hru1, hm]
              have hstep_sc : scanStep m close sc k = sc := by
                unfold scanStep
                rw [if_neg (by simp [hscb]), if_neg (by simp [hm])]
              rw [hstep_ru, hstep_sc]
              refine ⟨ih1, ?_, ?_, ih4⟩
              · intro s1 h
                rw [hru1] at h
                have : s0 = s1 := by simpa using h
                subst this
                exact ⟨ihs, by omega, by omega⟩
              · intro se hse
                have := ih3 se hse
                omega
          | false =>
              have hstep_ru : runsStep m ru k = (none, ru.2 ++ [(s0, k - 1)]) := by
                unfold runsStep
                rw [hru1, hm]
              have hstep_sc : scanStep m close sc k
                  = (false, sc.2.1, sc.2.2 ++ [close sc.2.1 k]) := by
                unfold scanStep
                rw [if_neg (by simp [hm]), if_pos (by simp [hm, hscb])]
              rw [hstep_ru, hstep_sc]
              refine ⟨rfl, ?_, ?_, ?_⟩
              · intro s1 h
                simp at h
              · intro se hse
                rcases List.mem_append.mp hse with h | h
                · have := ih3 se h
                  omega
                · simp at h
                  rw [h]
                  show k - 1 + 1 < k + 1
                  omega
              · show sc.2.2 ++ [close sc.2.1 k] = _
                rw [ih4, ihs, List.map_append]
                show _ = _ ++ [close s0 (k - 1 + 1)]
                rw [show k - 1 + 1 = k by omega]

lemma topRegionsRaw_eq_closed_runs (fi tp : List ℚ) :
    topRegionsRaw fi tp
      = ((specRuns (importMask fi) fi.length).filter
          (fun se => se.2 + 1 < fi.length)).map
        (fun se => mkTopRegion fi tp se.1 (se.2 + 1)) := by
  obtain ⟨h1, h2, h3, h4⟩ := scan_runs_rel (importMask fi) (mkTopRegion fi tp) fi.length
  set ru := (List.range fi.length).foldl (runsStep (importMask fi)) (none, []) with hru_def
  have hpair : ru = (ru.1, ru.2) := rfl
  cases hru1 : ru.1 with
  | none =>
      have hspec : specRuns (importMask fi) fi.length = ru.2 := by
        unfold specRuns
        rw [← hru_def, hpair, hru1]
      have hfilter : ru.2.filter (fun se => se.2 + 1 < fi.length) = ru.2 := by
        apply List.filter_eq_self.mpr
        intro se hse
        exact decide_eq_true (h3 se hse)
      unfold topRegionsRaw
      rw [h4, hspec, hfilter]
  | some s0 =>
      obtain ⟨_, hk, _⟩ := h2 s0 hru1
      have hspec : specRuns (importMask fi) fi.length = ru.2 ++ [(s0, fi.length - 1)] := by
        unfold specRuns
        rw [← hru_def, hpair, hru1]
      have hfilter : (ru.2 ++ [(s0, fi.length - 1)]).filter
          (fun se => se.2 + 1 < fi.length) = ru.2 := by
        rw [List.filter_append]
        have hlast : [((s0, fi.length - 1) : ℕ × ℕ)].filter
            (fun se => se.2 + 1 < fi.length) = [] := by
          simp only [List.filter_cons, List.filter_nil]
          rw [if_neg]
          simp only [decide_eq_true_eq]
          omega
        rw [hlast, List.append_nil]
        apply List.filter_eq_self.mpr
        intro se hse
        exact decide_eq_true (h3 se hse)
      unfold topRegionsRaw
      rw [h4, hspec, hfilter]

/-- **C8 (counterexample).** On `feature_importance = [0,0,0,0,1]` with
times `[0,1,2,3,4]`, the 80th-percentile threshold is 0.2 and the only
above-threshold run is the final point; the claim says every maximal run
becomes a candidate region, but the code scan closes a run only when a
later below-threshold point arrives, so the run touching the end of the
array is dropped and no region is returned. -/
theorem claim_C8_counterexample :
    identify_top_regions [0, 0, 0, 0, 1] [0, 1, 2, 3, 4] = []
    ∧ claimTopRegions [0, 0, 0, 0, 1] [0, 1, 2, 3, 4] = [⟨4, 4, 1, 100⟩]
    ∧ identify_top_regions [0, 0, 0, 0, 1] [0, 1, 2, 3, 4]
        ≠ claimTopRegions [0, 0, 0, 0, 1] [0, 1, 2, 3, 4] := by
  have hthr : percentileLinear (([0, 0, 0, 0, 1] : List ℚ).map (fun x => |x|)) 80
      = 1/5 := by
    norm_num [percentileLinear, List.insertionSort, List.orderedInsert,
      Int.floor_eq_iff]
    rw [show Int.toNat 3 = 3 from rfl]
    norm_num [nthD]
  have hmask0 : ∀ i, importMask [0, 0, 0, 0, 1] i = decide (i = 4) := by
    intro i
    unfold importMask
    rw [hthr]
    match i with
    | 0 => norm_num
    | 1 => norm_num
    | 2 => norm_num
    | 3 => norm_num
    | 4 => norm_num
    | (j+5) =>
        norm_num [List.getD_eq_default]
        omega
  have hraw : identify_top_regions [0, 0, 0, 0, 1] [0, 1, 2, 3, 4] = [] := by
    unfold identify_top_regions topRegionsRaw
    rw [show ([(0:ℚ), 0, 0, 0, 1] : List ℚ).length = 5 from by norm_num]
    rw [show List.range 5 = [0, 1, 2, 3, 4] from rfl]
    simp only [List.foldl_cons, List.foldl_nil]
    rw [show scanStep (importMask [0,0,0,0,1]) (mkTopRegion [0,0,0,0,1] [0,1,2,3,4])
        (false, 0, []) 0 = (false, 0, []) from by
      unfold scanStep
      rw [if_neg (by simp [hmask0 0]), if_neg (by simp)]]
    rw [show scanStep (importMask [0,0,0,0,1]) (mkTopRegion [0,0,0,0,1] [0,1,2,3,4])
        (false, 0, []) 1 = (false, 0, []) from by
      unfold scanStep
      rw [if_neg (by simp [hmask0 1]), if_neg (by simp)]]
    rw [show scanStep (importMask [0,0,0,0,1]) (mkTopRegion [0,0,0,0,1] [0,1,2,3,4])
        (false, 0, []) 2 = (false, 0, []) from by
      unfold scanStep
      rw [if_neg (by simp [hmask0 2]), if_neg (by simp)]]
    rw [show scanStep (importMask [0,0,0,0,1]) (mkTopRegion [0,0,0,0,1] [0,1,2,3,4])
        (false, 0, []) 3 = (false, 0, []) from by
      unfold scanStep
      rw [if_neg (by simp [hmask0 3]), if_neg (by simp)]]
    rw [show scanStep (importMask [0,0,0,0,1]) (mkTopRegion [0,0,0,0,1] [0,1,2,3,4])
        (false, 0, []) 4 = (true, 4, []) from by
      unfold scanStep
      rw [if_pos (by simp [hmask0 4])]]
    rfl
  have hclaim : claimTopRegions [0, 0, 0, 0, 1] [0, 1, 2, 3, 4]
      = [⟨4, 4, 1, 100⟩] := by
    have hruns : specRuns (importMask [0, 0, 0, 0, 1]) 5 = [(4, 4)] := by
      unfold specRuns
      rw [show List.range 5 = [0, 1, 2, 3, 4] from rfl]
      simp only [List.foldl_cons, List.foldl_nil]
      rw [show runsStep (importMask [0,0,0,0,1]) (none, []) 0 = (none, []) from by
        unfold runsStep
        rw [show importMask [0,0,0,0,1] 0 = false from by simp [hmask0 0]]]
      rw [show runsStep (importMask [0,0,0,0,1]) (none, []) 1 = (none, []) from by
        unfold runsStep
        rw [show importMask [0,0,0,0,1] 1 = false from by simp [hmask0 1]]]
      rw [show runsStep (importMask [0,0,0,0,1]) (none, []) 2 = (none, []) from by
        unfold runsStep
        rw [show importMask [0,0,0,0,1] 2 = false from by simp [hmask0 2]]]
      rw [show runsStep (importMask [0,0,0,0,1]) (none, []) 3 = (none, []) from by
        unfold runsStep
        rw [show importMask [0,0,0,0,1] 3 = false from by simp [hmask0 3]]]
      rw [show runsStep (importMask [0,0,0,0,1]) (none, []) 4 = (some 4, []) from by
        unfold runsStep
        rw [show importMask [0,0,0,0,1] 4 = true from by simp [hmask0 4]]]
      rfl
    unfold claimTopRegions claimCandidates
    rw [show ([(0:ℚ), 0, 0, 0, 1] : List ℚ).length = 5 from by norm_num, hruns]
    simp only [List.map_cons, List.map_nil, List.insertionSort, List.orderedInsert,
      List.take]
    unfold mkTopRegion npMean
    norm_num [List.drop, List.take, TopRegion.mk.injEq]
  refine ⟨hraw, hclaim, ?_⟩
  rw [hraw, hclaim]
  exact fun hcon => List.cons_ne_nil _ _ hcon.symm

/-- **C8 (amended).** `_identify_top_regions` computes the 80th-percentile
threshold of absolute importance and turns every maximal above-threshold
run *that is terminated by a later below-threshold point* into one
candidate region (a run extending to the end of the array is discarded);
the result is the candidates sorted (stably) by descending absolute
importance, truncated to at most 5. -/
theorem claim_C8_amended : ∀ fi tp : List ℚ,
    identify_top_regions fi tp
      = (List.insertionSort topRegionLe
          (((specRuns (importMask fi) fi.length).filter
              (fun se => se.2 + 1 < fi.length)).map
            (fun se => mkTopRegion fi tp se.1 (se.2 + 1)))).take 5
    ∧ (identify_top_regions fi tp).Pairwise topRegionLe
    ∧ (identify_top_regions fi tp).length ≤ 5 := by
  intro fi tp
  refine ⟨?_, ?_, ?_⟩
  · unfold identify_top_regions
    rw [topRegionsRaw_eq_closed_runs]
  · exact ((List.sorted_insertionSort topRegionLe _).sublist (List.take_sublist _ _))
  · unfold identify_top_regions
    exact List.length_take_le _ _

/-! ## Prediction service and HTTP boundary
(backend/services/prediction.py, backend/main.py) -/

/-- A catalog entry of backend/data/samples.json as consumed by
`_predict_synthetic`: id, display name, ground-truth label and the optional
`params` fields. -/
structure Sample where
  id : String
  name : String
  truth : Truth
  period_days : Option ℚ
  transit_depth : Option ℚ
  transit_duration : Option ℚ
  planet_radius : Option ℚ
  anomaly_type : Option String
deriving Repr

/-- The string form of a classification label. -/
def labelStr : Label → String
  | .exoplanet => "exoplanet"
  | .no_planet => "no_planet"

/-- The `analysis` metadata block (models.schemas.AnalysisMetadata). -/
structure AnalysisMetadata where
  orbital_period : Option ℚ
  transit_duration : Option ℚ
  planet_radius : Option ℚ
  star_name : String
  discovery_method : String
deriving Repr

/-- The response assembled by `_predict_synthetic`
(models.schemas.AnalysisResponse; `processing_time_ms` is wall-clock time
and is not modelled). -/
structure AnalysisResponse where
  classification : String
  confidence_score : ℚ
  prob_exoplanet : ℚ
  prob_no_planet : ℚ
  light_curve_data : List ℚ
  time_points : List ℚ
  highlighted_regions : List Region
  analysis : AnalysisMetadata
  shap_explanation : ShapOut
  model_version : String
deriving Repr

/-- `_predict_synthetic` (prediction.py lines 63-146): generate the light
curve for the truth label, resolve the classification from the hash of the
sample id, derive the two-class probabilities, run the explainer, and
assemble the response.  `hashFn` is the per-process string hash; the
remaining abstract parameters are those of the generator and explainer. -/
def predict_synthetic {R : Type} (npSeed : ℕ → R)
    (npNormal : R → ℚ → ℚ → ℕ → ℕ → ℚ) (qexp : ℚ → ℚ)
    (conv : List ℚ → List ℚ → List ℚ) (gfilter : List ℚ → List ℚ)
    (fmt : ℚ → String) (hashFn : String → Int) (noise : ℕ → ℚ)
    (qsin : ℚ → ℚ) (qpi : ℚ) (rng : R) (sample : Sample) : AnalysisResponse :=
  let cls := resolveClassification sample.truth (hashFn sample.id)
  let gen : GenResult :=
    match sample.truth with
    | .confirmed =>
        generate_confirmed_planet (sample.period_days.getD 10)
          (sample.transit_depth.getD (1/100)) (sample.transit_duration.getD 3)
          1000 sample.planet_radius noise
    | .candidate => generate_candidate 1000 noise
    | .false_positive =>
        generate_false_positive 1000 (sample.anomaly_type.getD "noise") noise qsin qpi
  let probs : ℚ × ℚ :=
    match cls.1 with
    | .exoplanet => (cls.2, 1 - cls.2)
    | .no_planet => (1 - cls.2, cls.2)
  let shap := explain_prediction npSeed npNormal qexp conv gfilter fmt rng
    gen.flux gen.time (labelStr cls.1) cls.2 gen.regions
  { classification := labelStr cls.1
    confidence_score := cls.2
    prob_exoplanet := probs.1
    prob_no_planet := probs.2
    light_curve_data := gen.flux
    time_points := gen.time
    highlighted_regions := gen.regions
    analysis :=
      { orbital_period := sample.period_days
        transit_duration := sample.transit_duration
        planet_radius := sample.planet_radius
        star_name := sample.name
        discovery_method := "Transit" }
    shap_explanation := shap
    model_version := "CosmicNet-v1.0" }

/-- `PredictionService.predict` (prediction.py lines 34-61): look the id up
in the catalog; an unknown id raises `ValueError` (modelled as
`Except.error`) before any generation or classification happens. -/
def predict {R : Type} (npSeed : ℕ → R)
    (npNormal : R → ℚ → ℚ → ℕ → ℕ → ℚ) (qexp : ℚ → ℚ)
    (conv : List ℚ → List ℚ → List ℚ) (gfilter : List ℚ → List ℚ)
    (fmt : ℚ → String) (hashFn : String → Int) (noise : ℕ → ℚ)
    (qsin : ℚ → ℚ) (qpi : ℚ) (rng : R) (samples_db : List Sample)
    (sample_id : String) : Except String AnalysisResponse :=
  match samples_db.find? (fun s => s.id == sample_id) with
  | none => Except.error ("Sample " ++ sample_id ++ " not found")
  | some sample =>
      Except.ok (predict_synthetic npSeed npNormal qexp conv gfilter fmt
        hashFn noise qsin qpi rng sample)

/-- The outcome of the HTTP boundary `POST /api/predict`. -/
inductive HttpOutcome where
  | ok (resp : AnalysisResponse)
  | err (status : ℕ) (detail : String)
deriving Repr

/-- `predict_exoplanet` (main.py lines 51-68): a `ValueError` from the
service is mapped to an HTTP 404 with the error text as detail. -/
def predict_exoplanet {R : Type} (npSeed : ℕ → R)
    (npNormal : R → ℚ → ℚ → ℕ → ℕ → ℚ) (qexp : ℚ → ℚ)
    (conv : List ℚ → List ℚ → List ℚ) (gfilter : List ℚ → List ℚ)
    (fmt : ℚ → String) (hashFn : String → Int) (noise : ℕ → ℚ)
    (qsin : ℚ → ℚ) (qpi : ℚ) (rng : R) (samples_db : List Sample)
    (sample_id : String) : HttpOutcome :=
  match predict npSeed npNormal qexp conv gfilter fmt hashFn noise qsin qpi rng
      samples_db sample_id with
  | .ok r => .ok r
  | .error e => .err 404 e

/-- **C9.** An identifier matching no catalog entry makes `predict` return
the distinct, recoverable lookup error (never a result), and the boundary
maps it to a 404; the embedding is a pure function, so no light curve,
classification or state change is produced on this path. -/
theorem claim_C9 : ∀ {R : Type} (npSeed : ℕ → R)
    (npNormal : R → ℚ → ℚ → ℕ → ℕ → ℚ) (qexp : ℚ → ℚ)
    (conv : List ℚ → List ℚ → List ℚ) (gfilter : List ℚ → List ℚ)
    (fmt : ℚ → String) (hashFn : String → Int) (noise : ℕ → ℚ)
    (qsin : ℚ → ℚ) (qpi : ℚ) (rng : R) (db : List Sample) (sid : String),
    (∀ s ∈ db, s.id ≠ sid) →
    predict npSeed npNormal qexp conv gfilter fmt hashFn noise qsin qpi rng db sid
        = Except.error ("Sample " ++ sid ++ " not found")
    ∧ predict_exoplanet npSeed npNormal qexp conv gfilter fmt hashFn noise
        qsin qpi rng db sid
        = HttpOutcome.err 404 ("Sample " ++ sid ++ " not found")
    ∧ ∀ resp, predict npSeed npNormal qexp conv gfilter fmt hashFn noise
        qsin qpi rng db sid ≠ Except.ok resp := by
  intro R npSeed npNormal qexp conv gfilter fmt hashFn noise qsin qpi rng db sid h
  have hfind : db.find? (fun s => s.id == sid) = none := by
    rw [List.find?_eq_none]
    intro s hs
    simpa using h s hs
  have hpred : predict npSeed npNormal qexp conv gfilter fmt hashFn noise qsin qpi
      rng db sid = Except.error ("Sample " ++ sid ++ " not found") := by
    unfold predict
    rw [hfind]
  refine ⟨hpred, ?_, ?_⟩
  · unfold predict_exoplanet
    rw [hpred]
  · intro resp hcon
    rw [hpred] at hcon
    exact Except.noConfusion hcon

/-- A one-entry catalog used to witness claim C9. -/
def witnessSample : Sample :=
  ⟨"a", "A", Truth.confirmed, none, none, none, none, none⟩

/-- Witness for C9: the hypothesis is satisfiable at a concrete catalog and
identifier. -/
theorem claim_C9_witness :
    (∀ s ∈ [witnessSample], s.id ≠ "b")
    ∧ predict (fun _ => ()) (fun _ _ _ _ _ => 0) (fun _ => 0) (fun _ _ => [])
        (fun xs => xs) (fun _ => "") (fun _ => 0) (fun _ => 0) (fun _ => 0) 0 ()
        [witnessSample] "b"
        = Except.error ("Sample " ++ "b" ++ " not found") := by
  have hmem : ∀ s ∈ [witnessSample], s.id ≠ "b" := by
    intro s hs
    rw [List.mem_singleton] at hs
    subst hs
    decide
  exact ⟨hmem, (claim_C9 (fun _ => ()) (fun _ _ _ _ _ => 0) (fun _ => 0)
    (fun _ _ => []) (fun xs => xs) (fun _ => "") (fun _ => 0) (fun _ => 0)
    (fun _ => 0) 0 () _ "b" hmem).1⟩

end CosmicOptic
